import Mathlib

/-!
Shallow embedding of the Game of Life core from `src/mechanics.py`
(`class Board`) together with the `clear` operation of the presentation
layer (`Canvas.reset_game` in `src/main.py`).

Modelling conventions:
* Python integers are `Int`; the grid `self._state` is a `List (List Int)`
  (a value `0` is a dead cell, `1` an alive cell, but nothing in the code
  restricts cell values, so the carrier is all of `Int`).
* Python `assert`s and list indexing errors are modelled with
  `Except String`: an `AssertionError` for a failed `assert`, an
  `IndexError` for an out-of-range list subscript.  `pyIdx` is Python's
  index normalisation (negative indices count from the end; anything
  out of range is an error).
* `random.randint(0, 1)` in `randomize_board` is modelled by an injected
  oracle `rnd : Nat → Nat → Fin 2` giving the random bit drawn for each
  cell, reflecting that `randint(0,1)` always returns `0` or `1`.
* The in-place double loops of `randomize_board` and `next_state`
  overwrite every entry of the `height × width` grid, so they are
  modelled as rebuilding the grid; this coincides with the Python code on
  every well-formed board (`Board.WF`), and all boards reachable through
  the API are well-formed.
-/

/-- Python list index normalisation: a negative index counts from the end
of a list of length `n`; an index out of `[-n, n)` is an `IndexError`
(`none`). -/
def pyIdx (n : Nat) (i : Int) : Option Nat :=
  let j : Int := if i < 0 then i + n else i
  if 0 ≤ j ∧ j < (n : Int) then some j.toNat else none

/-- The board of `src/mechanics.py`: `_width`, `_height` and the nested
list `_state`. -/
structure Board where
  width : Int
  height : Int
  state : List (List Int)
deriving Repr, DecidableEq

namespace Board

/-- `Board.__init__` (`src/mechanics.py` lines 18-26):
`self._state = [ [0] * width for _ in range(height) ]`.  In Python,
`[0] * w` is empty for `w ≤ 0` and `range(h)` is empty for `h ≤ 0`,
which is exactly `Int.toNat`.  There is no validation of `width` or
`height`: construction always succeeds. -/
def init (width height : Int) : Board :=
  ⟨width, height, List.replicate height.toNat (List.replicate width.toNat 0)⟩

/-- Reading the grid entry at row `i`, column `j` (`Nat` indices),
defaulting to `0` outside the lists.  This default is only a modelling
device: every theorem below reads entries either under an in-range
guard or on a well-formed board. -/
def cellN (b : Board) (i j : Nat) : Int :=
  (b.state.getD i []).getD j 0

/-- Reading the grid entry at row `i`, column `j` given as integers
(used for the guarded neighbour accesses, whose guards ensure
`0 ≤ i` and `0 ≤ j` before any access happens). -/
def cellI (b : Board) (i j : Int) : Int :=
  b.cellN i.toNat j.toNat

/-- `Board.get_item` (`src/mechanics.py` lines 28-32): the `assert`
uses the source's literal comparisons `row <= self._height` and
`col <= self._width`; after it, `self._state[row][col]` is two Python
subscripts, each of which can raise an `IndexError`. -/
def get_item (b : Board) (row col : Int) : Except String Int :=
  if 0 ≤ row ∧ row ≤ b.height ∧ 0 ≤ col ∧ col ≤ b.width then
    match pyIdx b.state.length row with
    | none => .error "IndexError"
    | some i =>
      match pyIdx (b.state.getD i []).length col with
      | none => .error "IndexError"
      | some j => .ok ((b.state.getD i []).getD j 0)
  else .error "AssertionError: List index out of bounds"

/-- `Board.set_item` (`src/mechanics.py` lines 34-38): same `assert`
as `get_item`, then `self._state[row][col] = value` (subscript the row,
then assign into it). -/
def set_item (b : Board) (row col value : Int) : Except String Board :=
  if 0 ≤ row ∧ row ≤ b.height ∧ 0 ≤ col ∧ col ≤ b.width then
    match pyIdx b.state.length row with
    | none => .error "IndexError"
    | some i =>
      match pyIdx (b.state.getD i []).length col with
      | none => .error "IndexError"
      | some j => .ok { b with state := b.state.set i ((b.state.getD i []).set j value) }
  else .error "AssertionError: List index out of bounds"

/-- Unchecked single-cell write: the pure effect of a successful
`set_item` call (`set_item_ok` below proves the correspondence). -/
def setCell (b : Board) (i j : Nat) (v : Int) : Board :=
  { b with state := b.state.set i ((b.state.getD i []).set j v) }

/-- `Board.randomize_board` (`src/mechanics.py` lines 40-44): the double
loop `for i in range(self._height): for j in range(self._width):
self._state[i][j] = random.randint(0,1)`, with the random draws given
by the oracle `rnd`. -/
def randomize_board (b : Board) (rnd : Nat → Nat → Fin 2) : Board :=
  { b with state :=
      (List.range b.height.toNat).map fun i =>
        (List.range b.width.toNat).map fun j => ((rnd i j : Fin 2) : Int) }

/-- The delta pairs `(dr[i], dc[i])` of `Board.count_alive_neighbors`
(`src/mechanics.py` lines 56-57), in source order. -/
def neighborOffsets : List (Int × Int) :=
  [(0, -1), (0, 1), (1, -1), (1, 0), (1, 1), (-1, -1), (-1, 0), (-1, 1)]

/-- `Board.count_alive_neighbors` (`src/mechanics.py` lines 46-62):
`count += self._state[row + dr[i]][col + dc[i]]` guarded by the source's
bounds test `row + dr[i] < self._height and row + dr[i] >= 0 and
col + dc[i] < self._width and col + dc[i] >= 0`.  The function's
opening `assert` (`0 <= row <= height`, `0 <= col <= width`) passes on
every call `next_state` makes and on every in-bounds cell considered in
the theorems below, so the model is total; the guard makes every grid
access in range on a well-formed board. -/
def count_alive_neighbors (b : Board) (row col : Int) : Int :=
  (neighborOffsets.map fun p =>
    if row + p.1 < b.height ∧ 0 ≤ row + p.1 ∧ col + p.2 < b.width ∧ 0 ≤ col + p.2 then
      b.cellI (row + p.1) (col + p.2)
    else 0).sum

/-- `Board.next_state` (`src/mechanics.py` lines 64-84): a fresh
`newState` buffer is filled for every `(i, j)` with
`1` if `self._state[i][j] == 1 and count in [2,3]`,
`1` if `self._state[i][j] == 0 and count == 3`, else `0`
(the initial copy of the old grid into `newState` is overwritten
entirely by the second loop), and then published as the new state.
All neighbour counts read the old `self._state`. -/
def next_state (b : Board) : Board :=
  { b with state :=
      (List.range b.height.toNat).map fun i : Nat =>
        (List.range b.width.toNat).map fun j : Nat =>
          if b.cellI (i : Int) (j : Int) = 1 ∧
              (b.count_alive_neighbors (i : Int) (j : Int) = 2 ∨
                b.count_alive_neighbors (i : Int) (j : Int) = 3) then 1
          else if b.cellI (i : Int) (j : Int) = 0 ∧
              b.count_alive_neighbors (i : Int) (j : Int) = 3 then 1
          else 0 }

/-- Well-formedness: the nested list really is a `height × width` grid.
Every board reachable through the API satisfies this. -/
def WF (b : Board) : Prop :=
  b.state.length = b.height.toNat ∧ ∀ row ∈ b.state, row.length = b.width.toNat

instance (b : Board) : Decidable b.WF := by
  unfold WF; infer_instance

/-- Every stored cell value is `0` (dead) or `1` (alive). -/
def values01 (b : Board) : Prop :=
  ∀ row ∈ b.state, ∀ v ∈ row, v = 0 ∨ v = 1

instance (b : Board) : Decidable b.values01 := by
  unfold values01; infer_instance

/-- Modelled from the spec's wording for the neighbour count: "the number
of `Alive` cells among the 8 Moore-neighborhood positions
`(row+dr, col+dc)` for `dr, dc ∈ \x7b-1,0,1\x7d`, `(dr,dc) ≠ (0,0)`,
restricted to positions that lie within `[0, height) × [0, width)`". -/
def specOffsets : List (Int × Int) :=
  [(-1, -1), (-1, 0), (-1, 1), (0, -1), (0, 1), (1, -1), (1, 0), (1, 1)]

/-- The spec-side neighbour count: how many of the up-to-8 in-bounds
Moore neighbours are `Alive` (value `1`). -/
def specNeighborCount (b : Board) (row col : Int) : Nat :=
  specOffsets.countP fun p =>
    decide ((0 ≤ row + p.1 ∧ row + p.1 < b.height ∧ 0 ≤ col + p.2 ∧ col + p.2 < b.width) ∧
      b.cellI (row + p.1) (col + p.2) = 1)

/-- The horizontal blinker triplet `(2,1), (2,2), (2,3)`. -/
def horizTriplet (i j : Int) : Prop := i = 2 ∧ (j = 1 ∨ j = 2 ∨ j = 3)

/-- The vertical blinker triplet `(1,2), (2,2), (3,2)`. -/
def vertTriplet (i j : Int) : Prop := j = 2 ∧ (i = 1 ∨ i = 2 ∨ i = 3)

instance (i j : Int) : Decidable (horizTriplet i j) := by
  unfold horizTriplet; infer_instance

instance (i j : Int) : Decidable (vertTriplet i j) := by
  unfold vertTriplet; infer_instance

end Board

/-- `Canvas.reset_game` (`src/main.py` lines 128-133), restricted to its
effect on the `Board` (the GUI mirror is presentation): `for i in
range(self.height): for j in range(self.width): self.board.set_item(i, j, 0)`.
The `Canvas` dimensions equal the board's by construction
(`self.board = Board(self.width, self.height)`), so the loops range over
the board's own `height` and `width`. -/
def Canvas.reset_game (b : Board) : Except String Board :=
  (List.range b.height.toNat).foldlM
    (fun acc (i : Nat) =>
      (List.range b.width.toNat).foldlM
        (fun acc2 (j : Nat) => acc2.set_item (i : Int) (j : Int) 0) acc)
    b

/-- A concrete 5×5 board whose only alive cells are the horizontal
blinker triplet `(2,1), (2,2), (2,3)`. -/
def blinker5 : Board :=
  ⟨5, 5, [[0, 0, 0, 0, 0], [0, 0, 0, 0, 0], [0, 1, 1, 1, 0], [0, 0, 0, 0, 0], [0, 0, 0, 0, 0]]⟩

example : (Board.init 2 2).next_state.state = [[0, 0], [0, 0]] := by decide
example : (Board.init 3 3).get_item 3 0 = Except.error "IndexError" := by rfl
example : Canvas.reset_game (Board.init 2 1) = Except.ok (Board.init 2 1) := by rfl

/-! ### Basic list access lemmas -/

lemma getD_map_range {α : Type} (n : Nat) (f : Nat → α) (i : Nat) (d : α) (h : i < n) :
    ((List.range n).map f).getD i d = f i := by
  simp [List.getD_eq_getElem?_getD, List.getElem?_map, List.getElem?_range, h]

lemma getD_mem_or {α : Type} (l : List α) (i : Nat) (d : α) :
    l.getD i d ∈ l ∨ l.getD i d = d := by
  rw [List.getD_eq_getElem?_getD]
  cases h : l[i]? with
  | none => simp
  | some a => simpa using Or.inl (List.getElem?_mem h)

lemma pyIdx_eq_some (n : Nat) (i : Int) (h0 : 0 ≤ i) (h : i < (n : Int)) :
    pyIdx n i = some i.toNat := by
  simp only [pyIdx]
  rw [if_neg (by omega : ¬ i < 0)]
  exact if_pos ⟨h0, h⟩

namespace Board

/-! ### Well-formedness facts -/

lemma WF_init (w h : Int) : (Board.init w h).WF := by
  constructor
  · simp [init]
  · intro row hrow
    rw [List.eq_of_mem_replicate hrow]
    simp [init]

lemma row_length (b : Board) (hb : b.WF) (i : Nat) :
    (b.state.getD i []).length = b.width.toNat ∨ b.state.getD i [] = [] := by
  rcases getD_mem_or b.state i [] with h | h
  · exact Or.inl (hb.2 _ h)
  · exact Or.inr h

lemma row_length_of_lt (b : Board) (hb : b.WF) (i : Nat) (hi : i < b.state.length) :
    (b.state.getD i []).length = b.width.toNat := by
  apply hb.2
  rw [List.getD_eq_getElem?_getD, List.getElem?_eq_getElem hi]
  exact List.getElem_mem hi

/-! ### The pure effect of a successful `set_item` -/

lemma set_item_ok (b : Board) (r c v : Int) (hb : b.WF)
    (hr : 0 ≤ r) (hrh : r < b.height) (hc : 0 ≤ c) (hcw : c < b.width) :
    b.set_item r c v = .ok (b.setCell r.toNat c.toNat v) := by
  have hlen : (b.state.length : Int) = b.height := by
    rw [hb.1]; omega
  have hrow : ((b.state.getD r.toNat []).length : Int) = b.width := by
    rw [row_length_of_lt b hb r.toNat (by omega)]; omega
  unfold set_item
  rw [if_pos ⟨hr, by omega, hc, by omega⟩]
  simp only [pyIdx_eq_some b.state.length r hr (by omega),
    pyIdx_eq_some (b.state.getD r.toNat []).length c hc (by omega)]
  rfl

lemma get_item_ok (b : Board) (r c : Int) (hb : b.WF)
    (hr : 0 ≤ r) (hrh : r < b.height) (hc : 0 ≤ c) (hcw : c < b.width) :
    b.get_item r c = .ok (b.cellI r c) := by
  have hlen : (b.state.length : Int) = b.height := by
    rw [hb.1]; omega
  have hrow : ((b.state.getD r.toNat []).length : Int) = b.width := by
    rw [row_length_of_lt b hb r.toNat (by omega)]; omega
  unfold get_item
  rw [if_pos ⟨hr, by omega, hc, by omega⟩]
  simp only [pyIdx_eq_some b.state.length r hr (by omega),
    pyIdx_eq_some (b.state.getD r.toNat []).length c hc (by omega)]
  rfl

lemma setCell_width (b : Board) (i j : Nat) (v : Int) : (b.setCell i j v).width = b.width := rfl

lemma setCell_height (b : Board) (i j : Nat) (v : Int) : (b.setCell i j v).height = b.height := rfl

lemma WF_setCell (b : Board) (i j : Nat) (v : Int) (hb : b.WF) (hi : i < b.state.length) :
    (b.setCell i j v).WF := by
  refine ⟨by simp [setCell, hb.1], ?_⟩
  intro row hrow
  rcases List.mem_or_eq_of_mem_set hrow with h | h
  · exact hb.2 _ h
  · rw [h, List.length_set]
    exact row_length_of_lt b hb i hi

lemma cellN_setCell (b : Board) (i j : Nat) (v : Int)
    (hi : i < b.state.length) (hj : j < (b.state.getD i []).length) (r c : Nat) :
    (b.setCell i j v).cellN r c = if r = i ∧ c = j then v else b.cellN r c := by
  have hj' : j < (b.state[i]?.getD []).length := by
    rwa [List.getD_eq_getElem?_getD] at hj
  simp only [setCell, cellN]
  have hrow : (b.state.set i ((b.state.getD i []).set j v)).getD r [] =
      if r = i then (b.state.getD i []).set j v else b.state.getD r [] := by
    by_cases hri : r = i
    · subst hri
      simp [List.getD_eq_getElem?_getD, List.getElem?_set, hi]
    · simp only [List.getD_eq_getElem?_getD, List.getElem?_set]
      rw [if_neg (fun h : i = r => hri h.symm), if_neg hri]
  rw [hrow]
  by_cases hri : r = i
  · subst hri
    rw [if_pos rfl]
    by_cases hcj : c = j
    · subst hcj
      simp [List.getD_eq_getElem?_getD, List.getElem?_set, hj']
    · simp only [List.getD_eq_getElem?_getD, List.getElem?_set]
      rw [if_neg (fun h : j = c => hcj h.symm)]
      simp [hcj]
  · rw [if_neg hri, if_neg (by tauto)]

/-! ### Characterising `next_state` cell by cell -/

lemma next_state_width (b : Board) : b.next_state.width = b.width := rfl

lemma next_state_height (b : Board) : b.next_state.height = b.height := rfl

lemma cellI_next_state (b : Board) (r c : Int)
    (hr : 0 ≤ r) (hrh : r < b.height) (hc : 0 ≤ c) (hcw : c < b.width) :
    b.next_state.cellI r c =
      if b.cellI r c = 1 ∧
          (b.count_alive_neighbors r c = 2 ∨ b.count_alive_neighbors r c = 3) then 1
      else if b.cellI r c = 0 ∧ b.count_alive_neighbors r c = 3 then 1
      else 0 := by
  show ((b.next_state.state.getD r.toNat []).getD c.toNat 0) = _
  simp only [next_state]
  rw [getD_map_range _ _ _ _ (by omega), getD_map_range _ _ _ _ (by omega),
    Int.toNat_of_nonneg hr, Int.toNat_of_nonneg hc]

lemma WF_next_state (b : Board) : b.next_state.WF := by
  refine ⟨by simp [next_state], ?_⟩
  intro row hrow
  simp only [next_state, List.mem_map] at hrow
  obtain ⟨i, _, rfl⟩ := hrow
  simp [next_state]

lemma values01_next_state (b : Board) : b.next_state.values01 := by
  intro row hrow v hv
  simp only [next_state, List.mem_map] at hrow
  obtain ⟨i, _, rfl⟩ := hrow
  simp only [List.mem_map] at hv
  obtain ⟨j, _, rfl⟩ := hv
  split_ifs <;> simp

/-! ### The neighbour count and its specification -/

lemma cellI_01 (b : Board) (hv : b.values01) (i j : Int) :
    b.cellI i j = 0 ∨ b.cellI i j = 1 := by
  show b.cellN i.toNat j.toNat = 0 ∨ b.cellN i.toNat j.toNat = 1
  unfold cellN
  rcases getD_mem_or b.state i.toNat [] with hrow | hrow
  · rcases getD_mem_or (b.state.getD i.toNat []) j.toNat 0 with hval | hval
    · exact hv _ hrow _ hval
    · exact Or.inl hval
  · rw [hrow]
    simp

lemma count_term_eq (b : Board) (hv : b.values01) (r c : Int) (dr dc : Int) :
    (if r + dr < b.height ∧ 0 ≤ r + dr ∧ c + dc < b.width ∧ 0 ≤ c + dc then
        b.cellI (r + dr) (c + dc)
      else 0)
    = if (0 ≤ r + dr ∧ r + dr < b.height ∧ 0 ≤ c + dc ∧ c + dc < b.width) ∧
          b.cellI (r + dr) (c + dc) = 1 then 1 else 0 := by
  rcases cellI_01 b hv (r + dr) (c + dc) with h0 | h1 <;>
    split_ifs with ha hb2 <;> first | rfl | omega

lemma count_eq_spec (b : Board) (hv : b.values01) (r c : Int) :
    b.count_alive_neighbors r c = (specNeighborCount b r c : Int) := by
  simp only [count_alive_neighbors, neighborOffsets, List.map_cons, List.map_nil,
    List.sum_cons, List.sum_nil, specNeighborCount, specOffsets, List.countP_cons,
    List.countP_nil, decide_eq_true_eq]
  simp only [count_term_eq b hv r c]
  push_cast
  ring

lemma specNeighborCount_le_eight (b : Board) (r c : Int) :
    specNeighborCount b r c ≤ 8 :=
  le_trans (List.countP_le_length _) (by simp [specOffsets])

/-! ### Boards whose alive cells form a fixed pattern -/

lemma cellI_oob_row (b : Board) (hb : b.WF) (i j : Int) (hi0 : 0 ≤ i) (hi : b.height ≤ i) :
    b.cellI i j = 0 := by
  show (b.state.getD i.toNat []).getD j.toNat 0 = 0
  have h1 : b.state.getD i.toNat [] = ([] : List Int) :=
    List.getD_eq_default b.state [] (by rw [hb.1]; omega)
  rw [h1]
  simp

lemma cellI_oob_col (b : Board) (hb : b.WF) (i j : Int) (hj0 : 0 ≤ j) (hj : b.width ≤ j) :
    b.cellI i j = 0 := by
  show (b.state.getD i.toNat []).getD j.toNat 0 = 0
  rcases row_length b hb i.toNat with hrow | hrow
  · rw [List.getD_eq_default _ _ (by rw [hrow]; omega)]
  · rw [hrow]
    simp

lemma cellI_char_ext (b : Board) (hb : b.WF) (P : Int → Int → Prop)
    [∀ i j, Decidable (P i j)]
    (hP : ∀ i j, P i j → 0 ≤ i ∧ i < b.height ∧ 0 ≤ j ∧ j < b.width)
    (hchar : ∀ i j, 0 ≤ i → i < b.height → 0 ≤ j → j < b.width →
      b.cellI i j = if P i j then 1 else 0)
    (i j : Int) (hi : 0 ≤ i) (hj : 0 ≤ j) :
    b.cellI i j = if P i j then 1 else 0 := by
  by_cases hih : i < b.height
  · by_cases hjw : j < b.width
    · exact hchar i j hi hih hj hjw
    · rw [cellI_oob_col b hb i j hj (by omega),
        if_neg (fun hp => by have := hP i j hp; omega)]
  · rw [cellI_oob_row b hb i j hi (by omega),
      if_neg (fun hp => by have := hP i j hp; omega)]

lemma count_term_char (b : Board) (hb : b.WF) (P : Int → Int → Prop)
    [∀ i j, Decidable (P i j)]
    (hP : ∀ i j, P i j → 0 ≤ i ∧ i < b.height ∧ 0 ≤ j ∧ j < b.width)
    (hchar : ∀ i j, 0 ≤ i → i < b.height → 0 ≤ j → j < b.width →
      b.cellI i j = if P i j then 1 else 0)
    (a e : Int) :
    (if a < b.height ∧ 0 ≤ a ∧ e < b.width ∧ 0 ≤ e then b.cellI a e else 0)
      = if P a e then 1 else 0 := by
  by_cases hg : a < b.height ∧ 0 ≤ a ∧ e < b.width ∧ 0 ≤ e
  · rw [if_pos hg, cellI_char_ext b hb P hP hchar a e hg.2.1 hg.2.2.2]
  · rw [if_neg hg,
      if_neg (fun hp => hg (by have := hP a e hp; exact ⟨this.2.1, this.1, this.2.2.2, this.2.2.1⟩))]

lemma horiz_in_bounds (b : Board) (hh : 5 ≤ b.height) (hw : 5 ≤ b.width) :
    ∀ i j, horizTriplet i j → 0 ≤ i ∧ i < b.height ∧ 0 ≤ j ∧ j < b.width := by
  intro i j hp
  unfold horizTriplet at hp
  omega

lemma vert_in_bounds (b : Board) (hh : 5 ≤ b.height) (hw : 5 ≤ b.width) :
    ∀ i j, vertTriplet i j → 0 ≤ i ∧ i < b.height ∧ 0 ≤ j ∧ j < b.width := by
  intro i j hp
  unfold vertTriplet at hp
  omega

lemma step_horiz (b : Board) (hb : b.WF) (hh : 5 ≤ b.height) (hw : 5 ≤ b.width)
    (hchar : ∀ i j, 0 ≤ i → i < b.height → 0 ≤ j → j < b.width →
      b.cellI i j = if horizTriplet i j then 1 else 0) :
    ∀ i j, 0 ≤ i → i < b.height → 0 ≤ j → j < b.width →
      b.next_state.cellI i j = if vertTriplet i j then 1 else 0 := by
  intro i j hi hih hj hjw
  rw [cellI_next_state b i j hi hih hj hjw]
  simp only [count_alive_neighbors, neighborOffsets, List.map_cons, List.map_nil,
    List.sum_cons, List.sum_nil,
    count_term_char b hb horizTriplet (horiz_in_bounds b hh hw) hchar]
  rw [hchar i j hi hih hj hjw]
  have hz : ∀ a e : Int, ¬ horizTriplet a e →
      (if horizTriplet a e then (1 : Int) else 0) = 0 := fun a e h => if_neg h
  by_cases hwin : i ≤ 3 ∧ j ≤ 4
  · obtain ⟨hi3, hj4⟩ := hwin
    interval_cases i <;> interval_cases j <;> decide
  · rw [hz (i + 0) (j + -1) (by unfold horizTriplet; omega),
      hz (i + 0) (j + 1) (by unfold horizTriplet; omega),
      hz (i + 1) (j + -1) (by unfold horizTriplet; omega),
      hz (i + 1) (j + 0) (by unfold horizTriplet; omega),
      hz (i + 1) (j + 1) (by unfold horizTriplet; omega),
      hz (i + -1) (j + -1) (by unfold horizTriplet; omega),
      hz (i + -1) (j + 0) (by unfold horizTriplet; omega),
      hz (i + -1) (j + 1) (by unfold horizTriplet; omega),
      hz i j (by unfold horizTriplet; omega),
      if_neg (show ¬ vertTriplet i j by unfold vertTriplet; omega)]
    norm_num

lemma step_vert (b : Board) (hb : b.WF) (hh : 5 ≤ b.height) (hw : 5 ≤ b.width)
    (hchar : ∀ i j, 0 ≤ i → i < b.height → 0 ≤ j → j < b.width →
      b.cellI i j = if vertTriplet i j then 1 else 0) :
    ∀ i j, 0 ≤ i → i < b.height → 0 ≤ j → j < b.width →
      b.next_state.cellI i j = if horizTriplet i j then 1 else 0 := by
  intro i j hi hih hj hjw
  rw [cellI_next_state b i j hi hih hj hjw]
  simp only [count_alive_neighbors, neighborOffsets, List.map_cons, List.map_nil,
    List.sum_cons, List.sum_nil,
    count_term_char b hb vertTriplet (vert_in_bounds b hh hw) hchar]
  rw [hchar i j hi hih hj hjw]
  have hz : ∀ a e : Int, ¬ vertTriplet a e →
      (if vertTriplet a e then (1 : Int) else 0) = 0 := fun a e h => if_neg h
  by_cases hwin : i ≤ 4 ∧ j ≤ 3
  · obtain ⟨hi4, hj3⟩ := hwin
    interval_cases i <;> interval_cases j <;> decide
  · rw [hz (i + 0) (j + -1) (by unfold vertTriplet; omega),
      hz (i + 0) (j + 1) (by unfold vertTriplet; omega),
      hz (i + 1) (j + -1) (by unfold vertTriplet; omega),
      hz (i + 1) (j + 0) (by unfold vertTriplet; omega),
      hz (i + 1) (j + 1) (by unfold vertTriplet; omega),
      hz (i + -1) (j + -1) (by unfold vertTriplet; omega),
      hz (i + -1) (j + 0) (by unfold vertTriplet; omega),
      hz (i + -1) (j + 1) (by unfold vertTriplet; omega),
      hz i j (by unfold vertTriplet; omega),
      if_neg (show ¬ horizTriplet i j by unfold horizTriplet; omega)]
    norm_num

/-! ### The clear loop of `Canvas.reset_game` -/

lemma setCell_state_length (b : Board) (i j : Nat) (v : Int) :
    (b.setCell i j v).state.length = b.state.length := by
  simp [setCell]

lemma WF_setCell_any (b : Board) (i j : Nat) (v : Int) (hb : b.WF) : (b.setCell i j v).WF := by
  by_cases hi : i < b.state.length
  · exact WF_setCell b i j v hb hi
  · unfold setCell
    rw [List.set_eq_of_length_le (by omega)]
    exact hb

lemma innerFold_width (i : Nat) (js : List Nat) (b : Board) :
    (js.foldl (fun acc j => Board.setCell acc i j 0) b).width = b.width := by
  induction js generalizing b with
  | nil => rfl
  | cons j js ih => rw [List.foldl_cons, ih]; rfl

lemma innerFold_height (i : Nat) (js : List Nat) (b : Board) :
    (js.foldl (fun acc j => Board.setCell acc i j 0) b).height = b.height := by
  induction js generalizing b with
  | nil => rfl
  | cons j js ih => rw [List.foldl_cons, ih]; rfl

lemma innerFold_state_length (i : Nat) (js : List Nat) (b : Board) :
    (js.foldl (fun acc j => Board.setCell acc i j 0) b).state.length = b.state.length := by
  induction js generalizing b with
  | nil => rfl
  | cons j js ih => rw [List.foldl_cons, ih, setCell_state_length]

lemma innerFold_WF (i : Nat) (js : List Nat) (b : Board) (hb : b.WF) :
    (js.foldl (fun acc j => Board.setCell acc i j 0) b).WF := by
  induction js generalizing b with
  | nil => exact hb
  | cons j js ih => rw [List.foldl_cons]; exact ih _ (WF_setCell_any b i j 0 hb)

lemma inner_fold_ok (i : Nat) (js : List Nat) :
    ∀ b : Board, b.WF → (i : Int) < b.height → (∀ j ∈ js, (j : Int) < b.width) →
      js.foldlM (fun acc (j : Nat) => Board.set_item acc (i : Int) (j : Int) 0) b
        = .ok (js.foldl (fun acc j => Board.setCell acc i j 0) b) := by
  induction js with
  | nil => intro b _ _ _; rfl
  | cons j js ih =>
    intro b hb hih hjs
    rw [List.foldlM_cons,
      Board.set_item_ok b (i : Int) (j : Int) 0 hb (by positivity) hih (by positivity)
        (hjs j (List.mem_cons_self j js))]
    show js.foldlM _ (b.setCell (Int.toNat i) (Int.toNat j) 0) = _
    rw [Int.toNat_natCast, Int.toNat_natCast]
    rw [List.foldl_cons]
    exact ih _ (WF_setCell_any b i j 0 hb) hih (fun x hx => hjs x (List.mem_cons_of_mem j hx))

lemma outer_fold_ok (w : Nat) (rows : List Nat) :
    ∀ b : Board, b.WF → b.width.toNat = w → (∀ i ∈ rows, (i : Int) < b.height) →
      rows.foldlM
        (fun acc (i : Nat) =>
          (List.range w).foldlM
            (fun acc2 (j : Nat) => Board.set_item acc2 (i : Int) (j : Int) 0) acc)
        b
        = .ok (rows.foldl
            (fun acc i => (List.range w).foldl (fun acc2 j => Board.setCell acc2 i j 0) acc)
            b) := by
  induction rows with
  | nil => intro b _ _ _; rfl
  | cons i rows ih =>
    intro b hb hw hrows
    rw [List.foldlM_cons,
      inner_fold_ok i (List.range w) b hb (hrows i (List.mem_cons_self i rows))
        (by intro j hj; rw [List.mem_range] at hj; omega)]
    show rows.foldlM _ _ = _
    rw [List.foldl_cons]
    refine ih _ (innerFold_WF i (List.range w) b hb) ?_ ?_
    · rw [innerFold_width]; exact hw
    · intro x hx
      rw [innerFold_height]
      exact hrows x (List.mem_cons_of_mem i hx)

lemma cellN_inner_fold (i : Nat) (js : List Nat) :
    ∀ b : Board, b.WF → i < b.state.length → (∀ j ∈ js, j < b.width.toNat) →
      ∀ r c : Nat, (js.foldl (fun acc j => Board.setCell acc i j 0) b).cellN r c
        = if r = i ∧ c ∈ js then 0 else b.cellN r c := by
  induction js with
  | nil => intro b _ _ _ r c; simp
  | cons j js ih =>
    intro b hb hi hjs r c
    rw [List.foldl_cons,
      ih (b.setCell i j 0) (WF_setCell_any b i j 0 hb)
        (by rw [setCell_state_length]; exact hi)
        (by intro x hx; show x < (b.setCell i j 0).width.toNat
            exact hjs x (List.mem_cons_of_mem j hx)),
      cellN_setCell b i j 0 hi
        (by rw [row_length_of_lt b hb i hi]; exact hjs j (List.mem_cons_self j js)) r c]
    by_cases h1 : r = i
    · subst h1
      by_cases h2 : c ∈ js
      · simp [h2]
      · by_cases h3 : c = j <;> simp [h2, h3]
    · simp [h1]

lemma cellN_outer_fold (w : Nat) (rows : List Nat) :
    ∀ b : Board, b.WF → b.width.toNat = w → (∀ i ∈ rows, i < b.state.length) →
      ∀ r c : Nat,
        (rows.foldl
            (fun acc i => (List.range w).foldl (fun acc2 j => Board.setCell acc2 i j 0) acc)
            b).cellN r c
          = if r ∈ rows ∧ c < w then 0 else b.cellN r c := by
  induction rows with
  | nil => intro b _ _ _ r c; simp
  | cons i rows ih =>
    intro b hb hw hrows r c
    rw [List.foldl_cons,
      ih ((List.range w).foldl (fun acc2 j => Board.setCell acc2 i j 0) b)
        (innerFold_WF i (List.range w) b hb)
        (by rw [innerFold_width]; exact hw)
        (by intro x hx; rw [innerFold_state_length]
            exact hrows x (List.mem_cons_of_mem i hx)) r c,
      cellN_inner_fold i (List.range w) b hb (hrows i (List.mem_cons_self i rows))
        (by intro x hx; rw [List.mem_range] at hx; omega) r c]
    by_cases h1 : r ∈ rows
    · simp only [List.mem_cons, h1, or_true, true_and]
      by_cases h2 : c < w
      · simp [h2]
      · simp [h2, List.mem_range]
    · by_cases h2 : r = i
      · subst h2
        simp [h1, List.mem_range]
      · simp [h1, h2]

lemma outerFold_width (w : Nat) (rows : List Nat) (b : Board) :
    (rows.foldl
        (fun acc i => (List.range w).foldl (fun acc2 j => Board.setCell acc2 i j 0) acc)
        b).width = b.width := by
  induction rows generalizing b with
  | nil => rfl
  | cons i rows ih => rw [List.foldl_cons, ih, innerFold_width]

lemma outerFold_height (w : Nat) (rows : List Nat) (b : Board) :
    (rows.foldl
        (fun acc i => (List.range w).foldl (fun acc2 j => Board.setCell acc2 i j 0) acc)
        b).height = b.height := by
  induction rows generalizing b with
  | nil => rfl
  | cons i rows ih => rw [List.foldl_cons, ih, innerFold_height]

lemma outerFold_state_length (w : Nat) (rows : List Nat) (b : Board) :
    (rows.foldl
        (fun acc i => (List.range w).foldl (fun acc2 j => Board.setCell acc2 i j 0) acc)
        b).state.length = b.state.length := by
  induction rows generalizing b with
  | nil => rfl
  | cons i rows ih => rw [List.foldl_cons, ih, innerFold_state_length]

lemma outerFold_WF (w : Nat) (rows : List Nat) (b : Board) (hb : b.WF) :
    (rows.foldl
        (fun acc i => (List.range w).foldl (fun acc2 j => Board.setCell acc2 i j 0) acc)
        b).WF := by
  induction rows generalizing b with
  | nil => exact hb
  | cons i rows ih => rw [List.foldl_cons]; exact ih _ (innerFold_WF i (List.range w) b hb)

lemma reset_game_ok (b : Board) (hb : b.WF) :
    Canvas.reset_game b
      = .ok ((List.range b.height.toNat).foldl
          (fun acc i =>
            (List.range b.width.toNat).foldl (fun acc2 j => Board.setCell acc2 i j 0) acc)
          b) := by
  unfold Canvas.reset_game
  exact outer_fold_ok b.width.toNat (List.range b.height.toNat) b hb rfl
    (by intro i hi; rw [List.mem_range] at hi; omega)

/-! ### Inversion of successful calls, and value lemmas -/

lemma pyIdx_lt (n : Nat) (i : Int) (k : Nat) (h : pyIdx n i = some k) : k < n := by
  simp only [pyIdx] at h
  split at h <;> split at h <;>
    first
      | (injection h with h2; omega)
      | exact Option.noConfusion h

lemma set_item_inv (b b2 : Board) (r c v : Int) (h : b.set_item r c v = .ok b2) :
    ∃ i j : Nat, i < b.state.length ∧ j < (b.state.getD i []).length ∧
      b2 = b.setCell i j v := by
  unfold set_item at h
  split at h
  · cases hpi : pyIdx b.state.length r with
    | none => rw [hpi] at h; exact Except.noConfusion h
    | some i =>
      rw [hpi] at h
      dsimp only at h
      cases hpj : pyIdx (b.state.getD i []).length c with
      | none => rw [hpj] at h; exact Except.noConfusion h
      | some j =>
        rw [hpj] at h
        dsimp only at h
        refine ⟨i, j, pyIdx_lt _ _ _ hpi, pyIdx_lt _ _ _ hpj, ?_⟩
        injection h with h2
        exact h2.symm
  · exact Except.noConfusion h

lemma values01_of_cellN (b : Board)
    (h : ∀ i j : Nat, i < b.state.length → j < (b.state.getD i []).length →
      b.cellN i j = 0 ∨ b.cellN i j = 1) :
    b.values01 := by
  intro row hrow v hv
  obtain ⟨i, hi, rfl⟩ := List.mem_iff_getElem.mp hrow
  obtain ⟨j, hj, rfl⟩ := List.mem_iff_getElem.mp hv
  have hrowD : b.state.getD i [] = b.state[i] := by
    rw [List.getD_eq_getElem?_getD, List.getElem?_eq_getElem hi]
    rfl
  have hcell : b.cellN i j = b.state[i][j] := by
    unfold cellN
    rw [hrowD, List.getD_eq_getElem?_getD, List.getElem?_eq_getElem hj]
    rfl
  have := h i j hi (by rw [hrowD]; exact hj)
  rwa [hcell] at this

lemma WF_randomize (b : Board) (rnd : Nat → Nat → Fin 2) : (b.randomize_board rnd).WF := by
  refine ⟨by simp [randomize_board], ?_⟩
  intro row hrow
  simp only [randomize_board, List.mem_map] at hrow
  obtain ⟨i, _, rfl⟩ := hrow
  simp [randomize_board]

lemma values01_randomize (b : Board) (rnd : Nat → Nat → Fin 2) :
    (b.randomize_board rnd).values01 := by
  intro row hrow v hv
  simp only [randomize_board, List.mem_map] at hrow
  obtain ⟨i, _, rfl⟩ := hrow
  simp only [List.mem_map] at hv
  obtain ⟨j, _, rfl⟩ := hv
  have := (rnd i j).isLt
  omega

lemma values01_setCell (b : Board) (i j : Nat) (v : Int)
    (hb : b.values01) (hv : v = 0 ∨ v = 1) : (b.setCell i j v).values01 := by
  intro row hrow x hx
  rcases List.mem_or_eq_of_mem_set hrow with h | h
  · exact hb _ h _ hx
  · subst h
    rcases List.mem_or_eq_of_mem_set hx with h2 | h2
    · rcases getD_mem_or b.state i [] with h3 | h3
      · exact hb _ h3 _ h2
      · rw [h3] at h2
        exact absurd h2 (List.not_mem_nil x)
    · subst h2
      exact hv

end Board

/-! ### Claim theorems -/

/-- C1: after one `step` (`next_state`), an in-bounds cell is `Alive` (1) iff
it was `Alive` with a neighbour count of exactly 2 or 3 in the prior
generation, or `Dead` (0) with a neighbour count of exactly 3; every other
cell is `Dead` (the new cell value is always 1 or 0, and 0 whenever the two
alive conditions fail).  All neighbour counts in the statement are
`count_alive_neighbors` evaluated on the unmodified prior board `b`, never
on the generation being written: `next_state` is a pure function of the
prior grid and publishes a freshly built buffer. -/
theorem c1_step_rule (b : Board) (r c : Int)
    (hr : 0 ≤ r) (hrh : r < b.height) (hc : 0 ≤ c) (hcw : c < b.width) :
    (b.next_state.cellI r c = 1 ↔
      (b.cellI r c = 1 ∧
        (b.count_alive_neighbors r c = 2 ∨ b.count_alive_neighbors r c = 3)) ∨
      (b.cellI r c = 0 ∧ b.count_alive_neighbors r c = 3)) ∧
    (b.next_state.cellI r c = 1 ∨ b.next_state.cellI r c = 0) := by
  rw [Board.cellI_next_state b r c hr hrh hc hcw]
  constructor
  · constructor
    · intro h1
      split_ifs at h1 with h2 h3
      · exact Or.inl h2
      · exact Or.inr h3
      · omega
    · intro h1
      split_ifs with h2 h3
      · rfl
      · rfl
      · tauto
  · split_ifs <;> simp

/-- Witness for C1: on the 5×5 blinker board, the dead cell (1,2) has three
alive neighbours, so the rule theorem makes it alive after one step. -/
theorem c1_step_rule_witness : blinker5.next_state.cellI 1 2 = 1 :=
  ((c1_step_rule blinker5 1 2 (by decide) (by decide) (by decide) (by decide)).1).mpr
    (Or.inr (by decide))

/-- C4: on a board whose cells are all 0 or 1, the computed neighbour count
of any in-bounds cell is in [0, 8] and equals exactly the number of alive
cells among the in-bounds Moore-neighbourhood positions
(`specNeighborCount`, written from the spec's wording); out-of-bounds
positions are excluded by the bounds test, never wrapped. -/
theorem c4_neighbor_count (b : Board) (r c : Int) (hv : b.values01)
    (hr : 0 ≤ r) (hrh : r < b.height) (hc : 0 ≤ c) (hcw : c < b.width) :
    0 ≤ b.count_alive_neighbors r c ∧ b.count_alive_neighbors r c ≤ 8 ∧
      b.count_alive_neighbors r c = (Board.specNeighborCount b r c : Int) := by
  have he := Board.count_eq_spec b hv r c
  have h8 := Board.specNeighborCount_le_eight b r c
  refine ⟨by omega, by omega, he⟩

/-- Witness for C4 at the corner cell (0,0) of the 5×5 blinker board: the
corner counts only its up-to-3 in-bounds neighbours. -/
theorem c4_neighbor_count_witness :
    0 ≤ blinker5.count_alive_neighbors 0 0 ∧ blinker5.count_alive_neighbors 0 0 ≤ 8 ∧
      blinker5.count_alive_neighbors 0 0 = (Board.specNeighborCount blinker5 0 0 : Int) :=
  c4_neighbor_count blinker5 0 0 (by decide) (by decide) (by decide) (by decide) (by decide)

/-- C7: `next_state` is deterministic — two boards holding identical grids
(same dimensions and same cell contents) step to identical output grids.
The model of `next_state` takes no randomness source and reads nothing
but the prior generation. -/
theorem c7_step_deterministic (b1 b2 : Board)
    (hw : b1.width = b2.width) (hh : b1.height = b2.height) (hs : b1.state = b2.state) :
    b1.next_state.state = b2.next_state.state := by
  obtain ⟨w1, k1, s1⟩ := b1
  obtain ⟨w2, k2, s2⟩ := b2
  cases hw
  cases hh
  cases hs
  rfl

/-- Witness for C7: two syntactically different boards holding the same
2×2 all-dead grid step to the same grid. -/
theorem c7_step_deterministic_witness :
    (Board.init 2 2).next_state.state = (Board.mk 2 2 [[0, 0], [0, 0]]).next_state.state :=
  c7_step_deterministic (Board.init 2 2) (Board.mk 2 2 [[0, 0], [0, 0]]) rfl rfl (by decide)

/-- C10: the all-dead grid is a fixed point of `next_state` — if every
in-bounds cell of a board is 0, then after one step every in-bounds cell
is still 0: no cell becomes alive without alive neighbours. -/
theorem c10_dead_fixed_point (b : Board)
    (hdead : ∀ i j : Int, 0 ≤ i → i < b.height → 0 ≤ j → j < b.width → b.cellI i j = 0) :
    ∀ i j : Int, 0 ≤ i → i < b.height → 0 ≤ j → j < b.width →
      b.next_state.cellI i j = 0 := by
  intro i j hi hih hj hjw
  rw [Board.cellI_next_state b i j hi hih hj hjw]
  have hz : ∀ dr dc : Int,
      (if i + dr < b.height ∧ 0 ≤ i + dr ∧ j + dc < b.width ∧ 0 ≤ j + dc then
        b.cellI (i + dr) (j + dc) else 0) = 0 := by
    intro dr dc
    split_ifs with hg
    · exact hdead _ _ hg.2.1 hg.1 hg.2.2.2 hg.2.2.1
    · rfl
  have hcount : b.count_alive_neighbors i j = 0 := by
    simp only [Board.count_alive_neighbors, Board.neighborOffsets, List.map_cons,
      List.map_nil, List.sum_cons, List.sum_nil, hz]
    norm_num
  rw [hcount, hdead i j hi hih hj hjw]
  norm_num

/-- Witness for C10 at the all-dead 2×2 board and the cell (1,1). -/
theorem c10_dead_fixed_point_witness : (Board.init 2 2).next_state.cellI 1 1 = 0 :=
  c10_dead_fixed_point (Board.init 2 2)
    (fun i j hi hih hj hjw => by
      have hi2 : i < 2 := hih
      have hj2 : j < 2 := hjw
      interval_cases i <;> interval_cases j <;> decide)
    1 1 (by decide) (by decide) (by decide) (by decide)

/-- C2 evaluation at the failing input: on a 3×3 board the calls
`get_item 3 0` and `set_item 3 0 1` violate the precondition
`0 ≤ row < height` (row = height = 3), yet the explicit bounds check
passes, because the source asserts `row <= self._height` instead of
`row < self._height`; the calls are then rejected only by the underlying
list subscript (`IndexError`), not by the explicit check (whose failure
is the distinct `AssertionError`).  The first conjunct shows the
assert's condition holding at the out-of-bounds input; a genuinely
negative index is still caught by the explicit check. -/
theorem c2_bounds_check_gap :
    (0 ≤ (3 : Int) ∧ (3 : Int) ≤ (Board.init 3 3).height ∧
      0 ≤ (0 : Int) ∧ (0 : Int) ≤ (Board.init 3 3).width) ∧
    (Board.init 3 3).get_item 3 0 = Except.error "IndexError" ∧
    (Board.init 3 3).set_item 3 0 1 = Except.error "IndexError" ∧
    (Board.init 3 3).get_item (-1) 0
      = Except.error "AssertionError: List index out of bounds" :=
  ⟨by decide, rfl, rfl, rfl⟩

/-- C5 counterexample: `init` performs no validation of the dimensions.
With `width = 0 ≤ 0` (and with both dimensions negative) construction is
not rejected: it succeeds and returns a degenerate board. -/
theorem c5_no_validation :
    Board.init 0 5 = Board.mk 0 5 [[], [], [], [], []] ∧
    Board.init (-3) (-2) = Board.mk (-3) (-2) [] := by
  constructor <;> rfl

/-- C5 amended: `create` does not reject non-positive dimensions (see the
counterexample); for positive `width` and `height` it returns a board of
exactly those dimensions with every cell `Dead` (0). -/
theorem c5_create_positive (w h : Int) (hw : 0 < w) (hh : 0 < h) :
    (Board.init w h).width = w ∧ (Board.init w h).height = h ∧
    (Board.init w h).state.length = h.toNat ∧
    ∀ row ∈ (Board.init w h).state, row.length = w.toNat ∧ ∀ v ∈ row, v = 0 := by
  refine ⟨rfl, rfl, by simp [Board.init], ?_⟩
  intro row hrow
  rw [List.eq_of_mem_replicate hrow]
  constructor
  · simp
  · intro v hv
    exact List.eq_of_mem_replicate hv

/-- Witness for the amended C5 at a 3×2 board. -/
theorem c5_create_positive_witness :
    (Board.init 3 2).width = 3 ∧ (Board.init 3 2).height = 2 ∧
    (Board.init 3 2).state.length = (2 : Int).toNat ∧
    ∀ row ∈ (Board.init 3 2).state, row.length = (3 : Int).toNat ∧ ∀ v ∈ row, v = 0 :=
  c5_create_positive 3 2 (by decide) (by decide)

/-- C8: a successful in-bounds `set_item r c 1` makes `get_item r c`
return `Alive` (1), and every other in-bounds cell reads exactly the value
it had before the write. -/
theorem c8_set_frame (b : Board) (r c : Int) (hb : b.WF)
    (hr : 0 ≤ r) (hrh : r < b.height) (hc : 0 ≤ c) (hcw : c < b.width) :
    ∃ b2, b.set_item r c 1 = .ok b2 ∧ b2.get_item r c = .ok 1 ∧
      ∀ r2 c2 : Int, 0 ≤ r2 → r2 < b.height → 0 ≤ c2 → c2 < b.width →
        ¬(r2 = r ∧ c2 = c) → b2.get_item r2 c2 = b.get_item r2 c2 := by
  have hlen : r.toNat < b.state.length := by rw [hb.1]; omega
  have hrowlen : c.toNat < (b.state.getD r.toNat []).length := by
    rw [Board.row_length_of_lt b hb r.toNat hlen]; omega
  have hb2 : (b.setCell r.toNat c.toNat 1).WF := Board.WF_setCell b r.toNat c.toNat 1 hb hlen
  refine ⟨b.setCell r.toNat c.toNat 1, Board.set_item_ok b r c 1 hb hr hrh hc hcw, ?_, ?_⟩
  · rw [Board.get_item_ok _ r c hb2 hr hrh hc hcw]
    show Except.ok ((b.setCell r.toNat c.toNat 1).cellN r.toNat c.toNat) = _
    rw [Board.cellN_setCell b r.toNat c.toNat 1 hlen hrowlen]
    simp
  · intro r2 c2 hr2 hr2h hc2 hc2w hne
    rw [Board.get_item_ok _ r2 c2 hb2 hr2 hr2h hc2 hc2w,
      Board.get_item_ok b r2 c2 hb hr2 hr2h hc2 hc2w]
    show Except.ok ((b.setCell r.toNat c.toNat 1).cellN r2.toNat c2.toNat) = _
    rw [Board.cellN_setCell b r.toNat c.toNat 1 hlen hrowlen,
      if_neg (fun hcon => hne ⟨by omega, by omega⟩)]
    rfl

/-- Witness for C8 at the 2×2 all-dead board and the cell (0,1). -/
theorem c8_set_frame_witness :
    ∃ b2, (Board.init 2 2).set_item 0 1 1 = .ok b2 ∧ b2.get_item 0 1 = .ok 1 ∧
      ∀ r2 c2 : Int, 0 ≤ r2 → r2 < (Board.init 2 2).height → 0 ≤ c2 →
        c2 < (Board.init 2 2).width →
        ¬(r2 = 0 ∧ c2 = 1) → b2.get_item r2 c2 = (Board.init 2 2).get_item r2 c2 :=
  c8_set_frame (Board.init 2 2) 0 1 (by decide) (by decide) (by decide) (by decide) (by decide)

/-- C9: `clear` (the `reset_game` loop of `set_item(i, j, 0)` calls over the
whole grid) succeeds on every well-formed board and afterwards every
in-bounds cell reads as `Dead` (0) via `get_item`. -/
theorem c9_clear_all_dead (b : Board) (hb : b.WF) :
    ∃ b2, Canvas.reset_game b = .ok b2 ∧
      ∀ r c : Int, 0 ≤ r → r < b.height → 0 ≤ c → c < b.width →
        b2.get_item r c = .ok 0 := by
  refine ⟨_, Board.reset_game_ok b hb, ?_⟩
  intro r c hr hrh hc hcw
  have hWF2 := Board.outerFold_WF b.width.toNat (List.range b.height.toNat) b hb
  rw [Board.get_item_ok _ r c hWF2 hr
    (by rw [Board.outerFold_height]; exact hrh) hc
    (by rw [Board.outerFold_width]; exact hcw)]
  show Except.ok (Board.cellN _ r.toNat c.toNat) = _
  rw [Board.cellN_outer_fold b.width.toNat (List.range b.height.toNat) b hb rfl
    (by intro x hx; rw [List.mem_range] at hx; rw [hb.1]; omega) r.toNat c.toNat,
    if_pos ⟨List.mem_range.mpr (by omega), by omega⟩]

/-- Witness for C9 at a 2×3 board (2 wide, 3 tall). -/
theorem c9_clear_all_dead_witness :
    ∃ b2, Canvas.reset_game (Board.init 2 3) = .ok b2 ∧
      ∀ r c : Int, 0 ≤ r → r < (Board.init 2 3).height → 0 ≤ c →
        c < (Board.init 2 3).width → b2.get_item r c = .ok 0 :=
  c9_clear_all_dead (Board.init 2 3) (by decide)

/-- C3 counterexample: nothing restricts the stored cell values to the two
states — `set_item` accepts the value 2 and stores it, so a cell outside
the two defined states is representable and reachable through the API. -/
theorem c3_third_value_storable :
    (Board.init 1 1).set_item 0 0 2 = Except.ok (Board.mk 1 1 [[2]]) ∧
    ¬ (Board.mk 1 1 [[2]]).values01 :=
  ⟨rfl, by decide⟩

/-- C3 amended: the dimension invariant does hold — construction yields a
`width`/`height` grid and every operation (`set_item`, `randomize_board`,
`next_state`, the clear loop) preserves the stored dimensions and the
grid shape (`WF`); `randomize_board`, `next_state` and the clear loop
produce only the two cell states, and `set_item` preserves
two-valuedness when (and only when) the value written is one of the two
states — two-valued cells are a maintained invariant of the operations
as used, not a property enforced by the representation. -/
theorem c3_invariants :
    (∀ w h : Int, (Board.init w h).width = w ∧ (Board.init w h).height = h ∧
      (Board.init w h).WF ∧ (Board.init w h).values01) ∧
    (∀ (b b2 : Board) (r c v : Int), b.set_item r c v = .ok b2 →
      b2.width = b.width ∧ b2.height = b.height ∧ (b.WF → b2.WF) ∧
      (b.values01 → v = 0 ∨ v = 1 → b2.values01)) ∧
    (∀ (b : Board) (rnd : Nat → Nat → Fin 2),
      (b.randomize_board rnd).width = b.width ∧
      (b.randomize_board rnd).height = b.height ∧
      (b.randomize_board rnd).WF ∧ (b.randomize_board rnd).values01) ∧
    (∀ b : Board, b.next_state.width = b.width ∧ b.next_state.height = b.height ∧
      b.next_state.WF ∧ b.next_state.values01) ∧
    (∀ b b2 : Board, b.WF → Canvas.reset_game b = .ok b2 →
      b2.width = b.width ∧ b2.height = b.height ∧ b2.WF ∧ b2.values01) := by
  refine ⟨?_, ?_, ?_, ?_, ?_⟩
  · intro w h
    refine ⟨rfl, rfl, Board.WF_init w h, ?_⟩
    intro row hrow v hv
    rw [List.eq_of_mem_replicate hrow] at hv
    exact Or.inl (List.eq_of_mem_replicate hv)
  · intro b b2 r c v h
    obtain ⟨i, j, hi, hj, rfl⟩ := Board.set_item_inv b b2 r c v h
    exact ⟨rfl, rfl, fun hwf => Board.WF_setCell b i j v hwf hi,
      fun hv01 hv => Board.values01_setCell b i j v hv01 hv⟩
  · intro b rnd
    exact ⟨rfl, rfl, Board.WF_randomize b rnd, Board.values01_randomize b rnd⟩
  · intro b
    exact ⟨rfl, rfl, Board.WF_next_state b, Board.values01_next_state b⟩
  · intro b b2 hb h
    rw [Board.reset_game_ok b hb] at h
    injection h with h2
    subst h2
    have hWF2 := Board.outerFold_WF b.width.toNat (List.range b.height.toNat) b hb
    refine ⟨Board.outerFold_width _ _ _, Board.outerFold_height _ _ _, hWF2, ?_⟩
    apply Board.values01_of_cellN
    intro i j hi hj
    have hi2 : i < b.state.length := by
      rwa [Board.outerFold_state_length] at hi
    have hj2 : j < b.width.toNat := by
      rw [Board.row_length_of_lt _ hWF2 i hi, Board.outerFold_width] at hj
      exact hj
    rw [Board.cellN_outer_fold b.width.toNat (List.range b.height.toNat) b hb rfl
      (by intro x hx; rw [List.mem_range] at hx; rw [hb.1]; omega) i j,
      if_pos ⟨List.mem_range.mpr (by rw [hb.1] at hi2; omega), hj2⟩]
    exact Or.inl rfl

/-- Witness for the amended C3: a concrete `set_item` call writing an
`Alive` cell on a 2×2 board preserves the shape and two-valuedness. -/
theorem c3_invariants_witness :
    (Board.init 2 2).set_item 0 0 1 = Except.ok (Board.mk 2 2 [[1, 0], [0, 0]]) ∧
    (Board.mk 2 2 [[1, 0], [0, 0]]).WF ∧ (Board.mk 2 2 [[1, 0], [0, 0]]).values01 :=
  ⟨rfl,
    (c3_invariants.2.1 (Board.init 2 2) (Board.mk 2 2 [[1, 0], [0, 0]]) 0 0 1 rfl).2.2.1
      (by decide),
    (c3_invariants.2.1 (Board.init 2 2) (Board.mk 2 2 [[1, 0], [0, 0]]) 0 0 1 rfl).2.2.2
      (by decide) (by decide)⟩

/-- C6: on every well-formed board of at least 5×5 whose only alive cells
are the horizontal triplet (2,1), (2,2), (2,3), one step yields exactly
the vertical triplet (1,2), (2,2), (3,2) with all other cells dead, and a
second step restores exactly the horizontal triplet: the blinker
oscillates with period 2. -/
theorem c6_blinker (b : Board) (hb : b.WF) (hh : 5 ≤ b.height) (hw : 5 ≤ b.width)
    (hchar : ∀ i j : Int, 0 ≤ i → i < b.height → 0 ≤ j → j < b.width →
      b.cellI i j = if Board.horizTriplet i j then 1 else 0) :
    (∀ i j : Int, 0 ≤ i → i < b.height → 0 ≤ j → j < b.width →
      b.next_state.cellI i j = if Board.vertTriplet i j then 1 else 0) ∧
    (∀ i j : Int, 0 ≤ i → i < b.height → 0 ≤ j → j < b.width →
      b.next_state.next_state.cellI i j = if Board.horizTriplet i j then 1 else 0) := by
  have h1 := Board.step_horiz b hb hh hw hchar
  have h2 := Board.step_vert b.next_state (Board.WF_next_state b) hh hw h1
  exact ⟨h1, h2⟩

/-- Witness for C6 at the concrete 5×5 blinker board: after one step the
vertical cell (1,2) is alive and the horizontal cell (2,1) dead; after a
second step the horizontal cell (2,1) is alive again and (1,2) dead. -/
theorem c6_blinker_witness :
    blinker5.next_state.cellI 1 2 = 1 ∧ blinker5.next_state.cellI 2 1 = 0 ∧
    blinker5.next_state.next_state.cellI 2 1 = 1 ∧
    blinker5.next_state.next_state.cellI 1 2 = 0 := by
  have hchar : ∀ i j : Int, 0 ≤ i → i < blinker5.height → 0 ≤ j → j < blinker5.width →
      blinker5.cellI i j = if Board.horizTriplet i j then 1 else 0 := by
    intro i j hi hih hj hjw
    have hi5 : i < 5 := hih
    have hj5 : j < 5 := hjw
    interval_cases i <;> interval_cases j <;> decide
  have h := c6_blinker blinker5 (by decide) (by decide) (by decide) hchar
  refine ⟨?_, ?_, ?_, ?_⟩
  · have hv := h.1 1 2 (by decide) (by decide) (by decide) (by decide)
    rw [hv, if_pos (by decide)]
  · have hv := h.1 2 1 (by decide) (by decide) (by decide) (by decide)
    rw [hv, if_neg (by decide)]
  · have hv := h.2 2 1 (by decide) (by decide) (by decide) (by decide)
    rw [hv, if_pos (by decide)]
  · have hv := h.2 1 2 (by decide) (by decide) (by decide) (by decide)
    rw [hv, if_neg (by decide)]
